import Mathlib

/-!
Verification of the DFU flashing tool (`tools/dfu.py`).

This file gives a shallow embedding of the pure/algorithmic parts of the
tool — the sector-map builder `get_device_sectors`, the target selector
`populate_sectors`, the chunking used by `flash`/`read`, the mismatch
locator `get_first_mismatch_index`, the UUID-to-serial conversion, the
`set_address_safe` helper and the erase/flash/verify main sequence — and
proves the specified properties about them.

Python integers are modelled as `Int` (they are unbounded); Python
exceptions are modelled as `Option`/`Except` `none`/`error` results;
strings are modelled as Lean `String` (code points coincide for the ASCII
data handled here).
-/

namespace DfuTool

/-! ## Models of the Python standard-library helpers used by the source -/

/-- Value of a single digit character (decimal or hexadecimal, either case). -/
def digitValue (c : Char) : Option Nat :=
  if '0' ≤ c ∧ c ≤ '9' then some (c.toNat - '0'.toNat)
  else if 'a' ≤ c ∧ c ≤ 'f' then some (c.toNat - 'a'.toNat + 10)
  else if 'A' ≤ c ∧ c ≤ 'F' then some (c.toNat - 'A'.toNat + 10)
  else none

/-- Parse a non-empty run of digits in the given base (used to model
Python's `int`). Underscore digit separators, which Python also accepts,
are not modelled; every string these claims quantify over is free of them. -/
def parseDigits (base : Nat) (cs : List Char) : Option Nat :=
  match cs with
  | [] => none
  | _ :: _ =>
    cs.foldlM (fun acc c =>
      (digitValue c).bind (fun d => if d < base then some (acc * base + d) else none)) 0

/-- Remove the characters satisfying `p` from both ends of a list
(model of Python's `str.strip`). -/
def stripEnds (p : Char → Bool) (cs : List Char) : List Char :=
  ((cs.dropWhile p).reverse.dropWhile p).reverse

/-- Model of Python's `str.split(sep)` for a one-character separator (the
source only splits on `'/'`, `','` and `'*'`): split at every occurrence,
keeping empty pieces; the empty string yields `[""]`. -/
def py_split (sep : Char) : List Char → List (List Char)
  | [] => [[]]
  | c :: rest =>
    let r := py_split sep rest
    if c = sep then [] :: r
    else
      match r with
      | [] => [[c]]
      | h :: t => (c :: h) :: t

/-- Model of Python's `str.strip()` (whitespace variant, ASCII subset). -/
def py_strip (cs : List Char) : List Char :=
  stripEnds (fun c => c.isWhitespace) cs

/-- Model of Python's `str.strip('@')`. -/
def py_strip_at (cs : List Char) : List Char :=
  stripEnds (fun c => c = '@') cs

/-- Model of Python's `int(s)` (base 10): optional surrounding whitespace,
optional sign, then a non-empty digit string; anything else raises
`ValueError`, modelled as `none`. -/
def pythonInt10 (s : List Char) : Option Int :=
  match stripEnds (fun c => c.isWhitespace) s with
  | '+' :: rest => (parseDigits 10 rest).map (fun n => (n : Int))
  | '-' :: rest => (parseDigits 10 rest).map (fun n => -(n : Int))
  | rest => (parseDigits 10 rest).map (fun n => (n : Int))

/-- The unsigned part of Python's `int(s, 0)`: a `0x`/`0o`/`0b` prefix
selects the base; otherwise the literal is decimal and must not have a
leading zero (unless it is all zeros). -/
def parseBase0Body (cs : List Char) : Option Nat :=
  match cs with
  | [] => none
  | '0' :: rest =>
    match rest with
    | [] => some 0
    | c :: rest2 =>
      if c = 'x' ∨ c = 'X' then parseDigits 16 rest2
      else if c = 'o' ∨ c = 'O' then parseDigits 8 rest2
      else if c = 'b' ∨ c = 'B' then parseDigits 2 rest2
      else if (c :: rest2).all (fun d => d = '0') then some 0
      else none
  | cs => parseDigits 10 cs

/-- Model of Python's `int(s, 0)` as used for the base address
(`int(baseaddr, 0) # convert hex to decimal`). -/
def pythonIntBase0 (s : List Char) : Option Int :=
  match stripEnds (fun c => c.isWhitespace) s with
  | '+' :: rest => (parseBase0Body rest).map (fun n => (n : Int))
  | '-' :: rest => (parseBase0Body rest).map (fun n => -(n : Int))
  | rest => (parseBase0Body rest).map (fun n => (n : Int))

/-! ## Sector Map Builder (`get_device_sectors`) -/

/-- One sector of the device, as yielded by `get_device_sectors`:
the dictionary `\x7bname, alt, baseaddr, addr, len, mode\x7d`. -/
structure Sector where
  name : String
  alt : Nat
  baseaddr : Int
  addr : Int
  len : Int
  mode : Char
deriving DecidableEq, Repr

/-- `SIZE_MULTIPLIERS = ` space maps to 1, K to 1024, M to 1024*1024;
a missing key raises `KeyError`, modelled as `none`. -/
def SIZE_MULTIPLIERS (c : Char) : Option Int :=
  if c = ' ' then some 1
  else if c = 'K' then some 1024
  else if c = 'M' then some (1024 * 1024)
  else none

/-- One layout term of the descriptor string, e.g. `"04*016Kg"`:
`repeat, size = map(int, sector[:-2].split('*'))`, then
`size *= SIZE_MULTIPLIERS[sector[-2].upper()]` and `mode = sector[-1]`.
Returns (repeat count, size in bytes, mode character); the mode character
is *not* validated by the source. -/
def parse_layout_term (t : List Char) : Option (Int × Int × Char) :=
  match py_split '*' (t.take (t.length - 2)) with
  | [rs, ss] =>
    match pythonInt10 rs, pythonInt10 ss with
    | some rep, some size =>
      match t.reverse with
      | modeC :: unitC :: _ =>
        (SIZE_MULTIPLIERS unitC.toUpper).map (fun mult => (rep, size * mult, modeC))
      | _ => none
    | _, _ => none
  | _ => none

/-- The `while repeat > 0` loop of `get_device_sectors`: yield a sector,
advance the address cursor by `size`, decrement `repeat`.  `n` is the
number of remaining iterations (`max(repeat, 0)`). -/
def expand_count (name : String) (alt : Nat) (baseaddr size : Int) (mode : Char) :
    Int → Nat → List Sector
  | _, 0 => []
  | addr, n + 1 =>
    { name := name, alt := alt, baseaddr := baseaddr, addr := addr, len := size, mode := mode }
      :: expand_count name alt baseaddr size mode (addr + size) n

/-- The `for sector in layout.split(',')` loop, after each term has been
parsed: emit the sectors of each term in order, the address cursor running
across terms. -/
def expand_terms (name : String) (alt : Nat) (baseaddr : Int) :
    Int → List (Int × Int × Char) → List Sector
  | _, [] => []
  | addr, (rep, size, mode) :: rest =>
    expand_count name alt baseaddr size mode addr rep.toNat
      ++ expand_terms name alt baseaddr (addr + size * (rep.toNat : Int)) rest

/-- `get_device_sectors` for a single alternate setting `(name, alt)`,
forced to a list as the caller does with `list(get_device_sectors(dfudev))`.
`name.split('/')` must produce exactly three fields (otherwise the tuple
unpacking raises), the base address is parsed with `int(_, 0)`, and every
layout term must parse (the generator raises on the first bad term, so the
forced list is `none` exactly when some term is malformed). -/
def get_device_sectors (name : String) (alt : Nat) : Option (List Sector) :=
  match py_split '/' name.data with
  | [label, baseaddrStr, layout] =>
    match pythonIntBase0 baseaddrStr with
    | none => none
    | some baseaddr =>
      match (py_split ',' layout).mapM parse_layout_term with
      | none => none
      | some terms =>
        some (expand_terms ⟨py_strip_at (py_strip label)⟩ alt baseaddr baseaddr terms)
  | _ => none

/-- `contiguousB a l` holds when the sectors of `l` tile the address space
starting at `a`: each sector starts exactly where the previous one ends. -/
def contiguousB : Int → List Sector → Bool
  | _, [] => true
  | a, s :: rest => (s.addr = a : Bool) && contiguousB (a + s.len) rest

/-- The grouping of the sectors emitted by `expand_terms` into one list per
layout term (used to state that each term contributes exactly its own run
of sectors). -/
def term_parts (name : String) (alt : Nat) (baseaddr : Int) :
    Int → List (Int × Int × Char) → List (List Sector)
  | _, [] => []
  | addr, (rep, size, mode) :: rest =>
    expand_count name alt baseaddr size mode addr rep.toNat
      :: term_parts name alt baseaddr (addr + size * (rep.toNat : Int)) rest

/-! ## Target Selector (`populate_sectors`) -/

/-- The firmware image as consumed from `IntelHex`: the occupied
`[start, end)` segments and the sparse address-to-byte content. -/
structure Hexfile where
  segs : List (Int × Int)
  mem : List (Int × Nat)

/-- `hexfile.tobinarray(start, end)` (both bounds inclusive): one byte per
address, unoccupied addresses filled with the image's pad value 0xFF. -/
def tobinarray (hf : Hexfile) (start endincl : Int) : List Nat :=
  (List.range (endincl + 1 - start).toNat).map
    (fun (i : Nat) => (hf.mem.lookup (start + (i : Int))).getD 255)

/-- The overlap test of `populate_sectors`: the two `if` branches of the
segment loop, with `break` folded into `List.any`. -/
def touched (sector : Sector) (segs : List (Int × Int)) : Bool :=
  segs.any (fun p =>
    (p.1 < sector.addr ∧ p.2 > sector.addr : Bool)
      || (p.1 ≥ sector.addr ∧ p.1 < sector.addr + sector.len : Bool))

/-- `populate_sectors`: yield
`(sector, hexfile.tobinarray(addr, addr + size - 1))` for each touched
sector, in order; untouched sectors produce no entry. -/
def populate_sectors (sectors : List Sector) (hf : Hexfile) : List (Sector × List Nat) :=
  sectors.filterMap (fun sector =>
    if touched sector hf.segs then
      some (sector, tobinarray hf sector.addr (sector.addr + sector.len - 1))
    else none)

/-! ## Chunking used by `flash` and `read` -/

def MAX_TRANSFER_SIZE : Int := 2048

/-- Model of Python 2-era `fractions.gcd` (`while b: a, b = b, a % b`): for
`b = 0` it is `a`; otherwise the magnitude is the ordinary gcd and the sign
follows `b`.  The only call here is `fractions.gcd(sector['len'], 2048)`. -/
def fractions_gcd (a b : Int) : Int :=
  if b = 0 then a
  else if b < 0 then -(Int.gcd a b : Int)
  else (Int.gcd a b : Int)

/-- Model of Python's `range(start, stop, step)` for a positive `step` (the
only use here is `range(0, len(data), transfer_size)`). -/
def py_range (start stop step : Int) : List Int :=
  (List.range (((stop - start).toNat + step.toNat - 1) / step.toNat)).map
    (fun (i : Nat) => start + step * (i : Int))

/-- The chunking performed by `flash`:
`blocks = [data[i:i + transfer_size] for i in range(0, len(data), transfer_size)]`. -/
def flash_blocks (data : List Nat) (transfer_size : Int) : List (List Nat) :=
  (py_range 0 (data.length : Int) transfer_size).map
    (fun i => (data.drop i.toNat).take transfer_size.toNat)

/-- The `(blocknum, block)` pairs written by `flash`, via
`enumerate(blocks)`. -/
def flash_write_trace (data : List Nat) (transfer_size : Int) : List (Nat × List Nat) :=
  (flash_blocks data transfer_size).enum

/-- The block count of the `read` loop,
`range(int(sector['len'] / transfer_size))`; the division is exact here so
the float division of the source is exact. -/
def read_num_blocks (len : Int) : Nat :=
  len.toNat / (fractions_gcd len MAX_TRANSFER_SIZE).toNat

/-! ## Mismatch locator (`get_first_mismatch_index`) -/

/-- The scanning loop of `get_first_mismatch_index`: index of the first
position where the two lists differ. -/
def first_mismatch : List Nat → List Nat → Option Nat
  | x :: xs, y :: ys => if x ≠ y then some 0 else (first_mismatch xs ys).map (· + 1)
  | _, _ => none

/-- `get_first_mismatch_index(array1, array2)`: unequal lengths raise
`Exception("arrays must be same size")`; otherwise the index of the first
unequal item, or `None` if the arrays are equal. -/
def get_first_mismatch_index (array1 array2 : List Nat) : Except String (Option Nat) :=
  if array1.length ≠ array2.length then Except.error "arrays must be same size"
  else Except.ok (first_mismatch array1 array2)

/-! ## UUID to serial-number conversion -/

/-- A Python runtime value flowing through `uuid_to_serial`: either an
`int` or a tuple of ints (`struct.unpack` returns tuples). -/
inductive PyVal
  | int (n : Int)
  | tup (l : List Int)
deriving DecidableEq, Repr

/-- Python `+` on such values: addition on ints, concatenation on tuples,
`TypeError` (modelled `none`) on a mix. -/
def pyAdd : PyVal → PyVal → Option PyVal
  | PyVal.int a, PyVal.int b => some (PyVal.int (a + b))
  | PyVal.tup a, PyVal.tup b => some (PyVal.tup (a ++ b))
  | _, _ => none

/-- `struct.unpack('>I', bs)`: requires exactly 4 bytes and returns the
*1-tuple* holding the big-endian word. -/
def struct_unpack_I (bs : List Nat) : Option (List Int) :=
  match bs with
  | [b0, b1, b2, b3] => some [(((b0 * 256 + b1) * 256 + b2) * 256 + b3 : Int)]
  | _ => none

/-- `struct.pack('>I', v)`: requires an `int` in `[0, 2^32)`; any other
argument (in particular a tuple) raises `struct.error`, modelled `none`. -/
def struct_pack_I (v : PyVal) : Option (List Nat) :=
  match v with
  | PyVal.int n =>
    if 0 ≤ n ∧ n < 4294967296 then
      some [n.toNat / 16777216 % 256, n.toNat / 65536 % 256, n.toNat / 256 % 256, n.toNat % 256]
    else none
  | PyVal.tup _ => none

/-- Model of `bytearray.fromhex` for inputs without embedded spaces (the
argument here has its dashes removed first): an even number of hex digits,
two per byte. -/
def bytearray_fromhex : List Char → Option (List Nat)
  | [] => some []
  | c1 :: c2 :: rest =>
    match digitValue c1, digitValue c2 with
    | some d1, some d2 => (bytearray_fromhex rest).map (fun bs => (d1 * 16 + d2) :: bs)
    | _, _ => none
  | _ => none

/-- An uppercase hexadecimal digit character. -/
def hexDigitUpper (n : Nat) : Char :=
  if n < 10 then Char.ofNat ('0'.toNat + n) else Char.ofNat ('A'.toNat + n - 10)

/-- `bytes.hex().upper()`. -/
def bytesToHexUpper (bs : List Nat) : String :=
  ⟨(bs.map (fun b => [hexDigitUpper (b / 16 % 16), hexDigitUpper (b % 16)])).flatten⟩

/-- `str_to_uuid`: strip dashes, `bytearray.fromhex`, then unpack three
4-byte big-endian words from the slices `[0:4]`, `[4:8]`, `[8:12]`.
Faithful to the source: each word is the 1-tuple returned by
`struct.unpack`, not the bare integer. -/
def str_to_uuid (uuid : String) : Option (List Int × List Int × List Int) :=
  match bytearray_fromhex (uuid.data.filter (fun c => c ≠ '-')) with
  | none => none
  | some b =>
    match struct_unpack_I (b.take 4), struct_unpack_I ((b.drop 4).take 4),
        struct_unpack_I ((b.drop 8).take 4) with
    | some w0, some w1, some w2 => some (w0, w1, w2)
    | _, _, _ => none

/-- `uuid_to_serial(uuid0, uuid1, uuid2)`:
`(struct.pack('>I', uuid0 + uuid2) + struct.pack('>I', uuid1)[0:2]).hex().upper()`. -/
def uuid_to_serial (uuid0 uuid1 uuid2 : PyVal) : Option String :=
  match pyAdd uuid0 uuid2 with
  | none => none
  | some s =>
    match struct_pack_I s with
    | none => none
    | some b1 =>
      match struct_pack_I uuid1 with
      | none => none
      | some b2 => some (bytesToHexUpper (b1 ++ b2.take 2))

/-- The composition used at the call site:
`serial_number = uuid_to_serial(*str_to_uuid(args.uuid))`. -/
def str_to_uuid_serial (uuid : String) : Option String :=
  match str_to_uuid uuid with
  | none => none
  | some (u0, u1, u2) => uuid_to_serial (PyVal.tup u0) (PyVal.tup u1) (PyVal.tup u2)

/-! ## DFU state machine driver (`set_address_safe`) -/

/-- The DFU states (`dfuse.DfuState`) reachable by this driver. -/
inductive DfuState
  | DFU_IDLE
  | DFU_DOWNLOAD_SYNC
  | DFU_DOWNLOAD_BUSY
  | DFU_DOWNLOAD_IDLE
  | DFU_MANIFEST_SYNC
  | DFU_MANIFEST
  | DFU_UPLOAD_IDLE
  | DFU_ERROR
deriving DecidableEq, Repr

/-- A DFU status tuple as returned by `wait_while_state`; `status[1]` is
the current state. -/
structure DfuStatus where
  pollTimeout : Nat
  state : DfuState
deriving DecidableEq, Repr

/-- An opaque device handle: the type of the `dfudef` parameter of
`set_address_safe`. -/
structure DfuHandle where
  id : Nat
deriving DecidableEq, Repr

/-- The USB requests `set_address_safe` issues on the module global
`dfudev`; `waitWhileState s` is `dfudev.wait_while_state(s)`, the poll loop
that runs until the device leaves state `s`. -/
inductive DfuAction
  | setAddress (addr : Int)
  | waitWhileState (s : DfuState)
  | abortReq
deriving DecidableEq, Repr

/-- `set_address_safe(dfudef, addr)`.  The body never references `dfudef`;
every request goes to the module global `dfudev`.  The two
`wait_while_state` results of that global device are the oracle inputs
`st1` (after `set_address`) and `st2` (after `abort`).  Returns the
request trace and the status carried by the raised `RuntimeError`
(`none` = normal return). -/
def set_address_safe (dfudef : DfuHandle) (addr : Int) (st1 st2 : DfuStatus) :
    List DfuAction × Option DfuStatus :=
  if st1.state ≠ DfuState.DFU_DOWNLOAD_IDLE then
    ([DfuAction.setAddress addr, DfuAction.waitWhileState DfuState.DFU_DOWNLOAD_BUSY],
      some st1)
  else if st2.state ≠ DfuState.DFU_IDLE then
    ([DfuAction.setAddress addr, DfuAction.waitWhileState DfuState.DFU_DOWNLOAD_BUSY,
      DfuAction.abortReq, DfuAction.waitWhileState DfuState.DFU_DOWNLOAD_SYNC],
      some st2)
  else
    ([DfuAction.setAddress addr, DfuAction.waitWhileState DfuState.DFU_DOWNLOAD_BUSY,
      DfuAction.abortReq, DfuAction.waitWhileState DfuState.DFU_DOWNLOAD_SYNC],
      none)

/-! ## Program sequencer (erase pass, flash pass, verify pass, jump) -/

/-- One device interaction of the main program sequence, at sector
granularity (the block-level chunking inside `flash`/`read` is modelled
separately by `flash_blocks`/`read_num_blocks`). -/
inductive Action
  | eraseAct (s : Sector)
  | flashAct (s : Sector)
  | readAct (s : Sector)
  | jumpAct (addr : Int)
deriving DecidableEq, Repr

def isEraseAct : Action → Bool
  | Action.eraseAct _ => true
  | _ => false

def isFlashAct : Action → Bool
  | Action.flashAct _ => true
  | _ => false

def isReadAct : Action → Bool
  | Action.readAct _ => true
  | _ => false

/-- The device's observable behaviour during the three passes: whether the
status checks of `erase`/`flash` succeed for a sector, and the data `read`
returns for it. -/
structure DeviceModel where
  eraseOk : Sector → Bool
  flashOk : Sector → Bool
  readback : Sector → List Nat

/-- A fatal error of the main sequence. -/
inductive RunError
  | eraseFail (s : Sector)
  | flashFail (s : Sector)
  | lengthMismatch (s : Sector)
  | verifyMismatch (s : Sector) (addr : Int) (expected observed : List Nat)
deriving DecidableEq, Repr

/-- The erase pass: `for (sector, data) in touched_sectors: erase(...)`;
the first failing status check raises and aborts the pass. -/
def erase_pass (dev : DeviceModel) :
    List (Sector × List Nat) → List Action × Option RunError
  | [] => ([], none)
  | (s, _) :: rest =>
    if dev.eraseOk s then
      let r := erase_pass dev rest
      (Action.eraseAct s :: r.1, r.2)
    else ([Action.eraseAct s], some (RunError.eraseFail s))

/-- The flash pass: `for (sector, data) in touched_sectors: flash(...)`. -/
def flash_pass (dev : DeviceModel) :
    List (Sector × List Nat) → List Action × Option RunError
  | [] => ([], none)
  | (s, _) :: rest =>
    if dev.flashOk s then
      let r := flash_pass dev rest
      (Action.flashAct s :: r.1, r.2)
    else ([Action.flashAct s], some (RunError.flashFail s))

/-- The 16-byte window start of the verification report:
`mismatch_pos -= mismatch_pos % 16`. -/
def window_start (pos : Nat) : Nat := pos - pos % 16

/-- The verify pass: read each sector back, locate the first mismatch
(observed first, expected second, as in the source), and raise a
`RuntimeError` carrying the 16-byte-aligned window of expected and
observed bytes on the first mismatching sector; later sectors are not
read. -/
def verify_pass (dev : DeviceModel) :
    List (Sector × List Nat) → List Action × Option RunError
  | [] => ([], none)
  | (s, expected) :: rest =>
    match get_first_mismatch_index (dev.readback s) expected with
    | Except.error _ => ([Action.readAct s], some (RunError.lengthMismatch s))
    | Except.ok none =>
      let r := verify_pass dev rest
      (Action.readAct s :: r.1, r.2)
    | Except.ok (some pos) =>
      ([Action.readAct s],
        some (RunError.verifyMismatch s (s.addr + (window_start pos : Int))
          ((expected.drop (window_start pos)).take 16)
          (((dev.readback s).drop (window_start pos)).take 16)))

/-- The main sequence after target selection: erase all, flash all, verify
all, then `jump_to_application(dfudev, 0x08000000)`; a raised error aborts
everything after it. -/
def run_program (dev : DeviceModel) (touchedEntries : List (Sector × List Nat)) :
    List Action × Option RunError :=
  match (erase_pass dev touchedEntries).2 with
  | some err => ((erase_pass dev touchedEntries).1, some err)
  | none =>
    match (flash_pass dev touchedEntries).2 with
    | some err =>
      ((erase_pass dev touchedEntries).1 ++ (flash_pass dev touchedEntries).1, some err)
    | none =>
      match (verify_pass dev touchedEntries).2 with
      | some err =>
        ((erase_pass dev touchedEntries).1 ++ (flash_pass dev touchedEntries).1
          ++ (verify_pass dev touchedEntries).1, some err)
      | none =>
        ((erase_pass dev touchedEntries).1 ++ (flash_pass dev touchedEntries).1
          ++ (verify_pass dev touchedEntries).1 ++ [Action.jumpAct 134217728], none)

/-- The 12-sector map of the specification's example descriptor, used as a
concrete test vector. -/
def exampleSectorMap : List Sector :=
  [⟨"Flash", 0, 0x08000000, 0x08000000, 16384, 'g'⟩,
   ⟨"Flash", 0, 0x08000000, 0x08004000, 16384, 'g'⟩,
   ⟨"Flash", 0, 0x08000000, 0x08008000, 16384, 'g'⟩,
   ⟨"Flash", 0, 0x08000000, 0x0800C000, 16384, 'g'⟩,
   ⟨"Flash", 0, 0x08000000, 0x08010000, 65536, 'g'⟩,
   ⟨"Flash", 0, 0x08000000, 0x08020000, 131072, 'g'⟩,
   ⟨"Flash", 0, 0x08000000, 0x08040000, 131072, 'g'⟩,
   ⟨"Flash", 0, 0x08000000, 0x08060000, 131072, 'g'⟩,
   ⟨"Flash", 0, 0x08000000, 0x08080000, 131072, 'g'⟩,
   ⟨"Flash", 0, 0x08000000, 0x080A0000, 131072, 'g'⟩,
   ⟨"Flash", 0, 0x08000000, 0x080C0000, 131072, 'g'⟩,
   ⟨"Flash", 0, 0x08000000, 0x080E0000, 131072, 'g'⟩]

/-! # Lemmas -/

theorem expand_count_length (name : String) (alt : Nat) (baseaddr size : Int) (mode : Char)
    (n : Nat) : ∀ addr : Int, (expand_count name alt baseaddr size mode addr n).length = n := by
  induction n with
  | zero => intro addr; rfl
  | succ k ih => intro addr; simp [expand_count, ih]

theorem expand_count_len_mem (name : String) (alt : Nat) (baseaddr size : Int) (mode : Char)
    (n : Nat) :
    ∀ (addr : Int) (sec : Sector), sec ∈ expand_count name alt baseaddr size mode addr n →
      sec.len = size := by
  induction n with
  | zero => intro addr sec h; simp [expand_count] at h
  | succ k ih =>
    intro addr sec h
    rcases List.mem_cons.mp h with h | h
    · subst h; rfl
    · exact ih (addr + size) sec h

theorem contiguousB_expand_count_append (name : String) (alt : Nat) (baseaddr size : Int)
    (mode : Char) (n : Nat) :
    ∀ (addr : Int) (l2 : List Sector),
      contiguousB addr (expand_count name alt baseaddr size mode addr n ++ l2)
        = contiguousB (addr + size * (n : Int)) l2 := by
  induction n with
  | zero => intro addr l2; simp [expand_count]
  | succ k ih =>
    intro addr l2
    simp only [expand_count, List.cons_append, List.append_eq, contiguousB, decide_True,
      Bool.true_and]
    rw [ih (addr + size) l2]
    congr 1
    push_cast
    ring

theorem expand_terms_eq_flatten (name : String) (alt : Nat) (baseaddr : Int)
    (terms : List (Int × Int × Char)) :
    ∀ addr : Int, expand_terms name alt baseaddr addr terms
      = (term_parts name alt baseaddr addr terms).flatten := by
  induction terms with
  | nil => intro addr; rfl
  | cons t rest ih =>
    intro addr
    obtain ⟨rep, size, mode⟩ := t
    simp only [expand_terms, term_parts, List.flatten_cons, ih]

theorem term_parts_forall2 (name : String) (alt : Nat) (baseaddr : Int)
    (terms : List (Int × Int × Char)) :
    ∀ addr : Int,
      List.Forall₂ (fun (part : List Sector) (t : Int × Int × Char) =>
          part.length = t.1.toNat ∧ ∀ sec ∈ part, sec.len = t.2.1)
        (term_parts name alt baseaddr addr terms) terms := by
  induction terms with
  | nil => intro addr; exact List.Forall₂.nil
  | cons t rest ih =>
    intro addr
    obtain ⟨rep, size, mode⟩ := t
    exact List.Forall₂.cons
      ⟨expand_count_length name alt baseaddr size mode rep.toNat addr,
       fun sec h => expand_count_len_mem name alt baseaddr size mode rep.toNat addr sec h⟩
      (ih _)

theorem contiguousB_expand_terms (name : String) (alt : Nat) (baseaddr : Int)
    (terms : List (Int × Int × Char)) :
    ∀ addr : Int, contiguousB addr (expand_terms name alt baseaddr addr terms) = true := by
  induction terms with
  | nil => intro addr; rfl
  | cons t rest ih =>
    intro addr
    obtain ⟨rep, size, mode⟩ := t
    simp only [expand_terms]
    rw [contiguousB_expand_count_append]
    exact ih _

theorem touched_iff (sector : Sector) (segs : List (Int × Int)) :
    touched sector segs = true ↔
      ∃ p ∈ segs, (p.1 < sector.addr ∧ sector.addr < p.2) ∨
        (sector.addr ≤ p.1 ∧ p.1 < sector.addr + sector.len) := by
  simp [touched, List.any_eq_true]

theorem populate_map_fst (sectors : List Sector) (hf : Hexfile) :
    (populate_sectors sectors hf).map Prod.fst
      = sectors.filter (fun s => touched s hf.segs) := by
  induction sectors with
  | nil => rfl
  | cons s rest ih =>
    simp only [populate_sectors, List.filterMap_cons, List.filter_cons] at *
    cases htc : touched s hf.segs
    · simp only [htc, Bool.false_eq_true, if_false, ih]
    · simp only [htc, if_true, List.map_cons, ih]

theorem lookup_mem {α β : Type} [BEq α] [LawfulBEq α] (a : α) (b : β) :
    ∀ l : List (α × β), l.lookup a = some b → (a, b) ∈ l := by
  intro l
  induction l with
  | nil => intro h; cases h
  | cons p rest ih =>
    obtain ⟨k, v⟩ := p
    intro h
    rw [List.lookup_cons] at h
    cases hk : (a == k)
    · rw [hk] at h
      simp only [Bool.false_eq_true, if_false] at h
      exact List.mem_cons_of_mem _ (ih h)
    · rw [hk] at h
      simp only [if_true] at h
      rw [List.mem_cons]
      exact Or.inl (by rw [eq_of_beq hk, Option.some_inj.mp h])

theorem tobinarray_length (hf : Hexfile) (a ln : Int) (h : 0 ≤ ln) :
    ((tobinarray hf a (a + ln - 1)).length : Int) = ln := by
  simp only [tobinarray, List.length_map, List.length_range]
  rw [show a + ln - 1 + 1 - a = ln by ring, Int.toNat_of_nonneg h]

theorem tobinarray_get (hf : Hexfile) (a ln : Int) (i : Nat)
    (hi : i < (tobinarray hf a (a + ln - 1)).length)
    (himg : ∀ q ∈ hf.mem, ∃ p ∈ hf.segs, p.1 ≤ q.1 ∧ q.1 < p.2)
    (hout : ¬ ∃ p ∈ hf.segs, p.1 ≤ a + (i : Int) ∧ a + (i : Int) < p.2) :
    (tobinarray hf a (a + ln - 1)).get ⟨i, hi⟩ = 255 := by
  simp only [tobinarray, List.get_map, List.get_range]
  cases hl : hf.mem.lookup (a + (i : Int))
  · rfl
  · exfalso
    exact hout (himg _ (lookup_mem _ _ _ hl))

theorem mapM_option_eq_none {α β : Type} (f : α → Option β) :
    ∀ l : List α, (∃ t ∈ l, f t = none) → l.mapM f = none := by
  intro l
  induction l with
  | nil => rintro ⟨t, ht, _⟩; cases ht
  | cons a rest ih =>
    rintro ⟨t, ht, hf⟩
    rw [List.mapM_cons]
    rcases List.mem_cons.mp ht with h | h
    · subst h
      rw [hf]
      rfl
    · cases hfa : f a
      · rfl
      · rw [ih ⟨t, h, hf⟩]
        rfl

theorem first_mismatch_none_iff :
    ∀ a1 a2 : List Nat, a1.length = a2.length → (first_mismatch a1 a2 = none ↔ a1 = a2) := by
  intro a1
  induction a1 with
  | nil =>
    intro a2 h
    cases a2 with
    | nil => simp [first_mismatch]
    | cons y ys => simp at h
  | cons x xs ih =>
    intro a2 h
    cases a2 with
    | nil => simp at h
    | cons y ys =>
      by_cases hxy : x = y
      · subst hxy
        simp [first_mismatch, Option.map_eq_none', ih ys (Nat.succ_injective h)]
      · simp [first_mismatch, hxy]

theorem first_mismatch_some_spec :
    ∀ (a1 a2 : List Nat) (i : Nat), first_mismatch a1 a2 = some i →
      i < a1.length ∧ a1.get? i ≠ a2.get? i ∧ ∀ j, j < i → a1.get? j = a2.get? j := by
  intro a1
  induction a1 with
  | nil => intro a2 i h; cases a2 <;> simp [first_mismatch] at h
  | cons x xs ih =>
    intro a2 i h
    cases a2 with
    | nil => simp [first_mismatch] at h
    | cons y ys =>
      simp only [first_mismatch] at h
      by_cases hxy : x = y
      · rw [if_neg (not_not_intro hxy)] at h
        obtain ⟨j, hj, rfl⟩ := Option.map_eq_some'.mp h
        obtain ⟨hlen, hdiff, hpre⟩ := ih ys j hj
        refine ⟨Nat.succ_lt_succ hlen, ?_, ?_⟩
        · rw [List.get?_cons_succ, List.get?_cons_succ]
          exact hdiff
        · intro j' hj'
          cases j' with
          | zero => simp [hxy]
          | succ j'' =>
            rw [List.get?_cons_succ, List.get?_cons_succ]
            exact hpre j'' (Nat.lt_of_succ_lt_succ hj')
      · rw [if_pos hxy] at h
        obtain rfl : (0 : Nat) = i := Option.some_inj.mp h
        refine ⟨Nat.succ_pos _, ?_, fun j hj => absurd hj (Nat.not_lt_zero _)⟩
        rw [List.get?_cons_zero, List.get?_cons_zero]
        simp [hxy]

theorem verify_pass_mismatch (dev : DeviceModel) :
    ∀ (pre : List (Sector × List Nat)) (s : Sector) (expected : List Nat)
      (post : List (Sector × List Nat)) (pos : Nat),
      (∀ p ∈ pre, get_first_mismatch_index (dev.readback p.1) p.2 = Except.ok none) →
      get_first_mismatch_index (dev.readback s) expected = Except.ok (some pos) →
      verify_pass dev (pre ++ (s, expected) :: post)
        = (pre.map (fun p => Action.readAct p.1) ++ [Action.readAct s],
           some (RunError.verifyMismatch s (s.addr + (window_start pos : Int))
             ((expected.drop (window_start pos)).take 16)
             (((dev.readback s).drop (window_start pos)).take 16))) := by
  intro pre
  induction pre with
  | nil =>
    intro s expected post pos hpre hm
    simp only [List.nil_append, verify_pass, hm, List.map_nil]
  | cons p rest ih =>
    intro s expected post pos hpre hm
    obtain ⟨ps, pd⟩ := p
    simp only [List.cons_append, List.append_eq, verify_pass,
      hpre (ps, pd) (List.mem_cons_self _ _),
      ih s expected post pos (fun q hq => hpre q (List.mem_cons_of_mem _ hq)) hm,
      List.map_cons]

theorem erase_pass_actions (dev : DeviceModel) :
    ∀ l : List (Sector × List Nat), ∀ a ∈ (erase_pass dev l).1, isEraseAct a = true := by
  intro l
  induction l with
  | nil => intro a ha; cases ha
  | cons e rest ih =>
    intro a ha
    obtain ⟨s, d⟩ := e
    by_cases hok : dev.eraseOk s = true
    · simp only [erase_pass, hok, if_true] at ha
      rcases List.mem_cons.mp ha with h | h
      · subst h; rfl
      · exact ih a h
    · simp only [erase_pass, hok, Bool.false_eq_true, if_false,
        eq_false_of_ne_true hok] at ha
      rcases List.mem_cons.mp ha with h | h
      · subst h; rfl
      · cases h

theorem erase_pass_complete (dev : DeviceModel) :
    ∀ l : List (Sector × List Nat), (erase_pass dev l).2 = none →
      (erase_pass dev l).1 = l.map (fun e => Action.eraseAct e.1) := by
  intro l
  induction l with
  | nil => intro _; rfl
  | cons e rest ih =>
    intro h
    obtain ⟨s, d⟩ := e
    by_cases hok : dev.eraseOk s = true
    · simp only [erase_pass, hok, if_true] at h ⊢
      rw [List.map_cons, ih h]
    · simp only [erase_pass, eq_false_of_ne_true hok, Bool.false_eq_true, if_false] at h
      cases h

theorem flash_pass_actions (dev : DeviceModel) :
    ∀ l : List (Sector × List Nat), ∀ a ∈ (flash_pass dev l).1, isFlashAct a = true := by
  intro l
  induction l with
  | nil => intro a ha; cases ha
  | cons e rest ih =>
    intro a ha
    obtain ⟨s, d⟩ := e
    by_cases hok : dev.flashOk s = true
    · simp only [flash_pass, hok, if_true] at ha
      rcases List.mem_cons.mp ha with h | h
      · subst h; rfl
      · exact ih a h
    · simp only [flash_pass, eq_false_of_ne_true hok, Bool.false_eq_true, if_false] at ha
      rcases List.mem_cons.mp ha with h | h
      · subst h; rfl
      · cases h

theorem flash_pass_complete (dev : DeviceModel) :
    ∀ l : List (Sector × List Nat), (flash_pass dev l).2 = none →
      (flash_pass dev l).1 = l.map (fun e => Action.flashAct e.1) := by
  intro l
  induction l with
  | nil => intro _; rfl
  | cons e rest ih =>
    intro h
    obtain ⟨s, d⟩ := e
    by_cases hok : dev.flashOk s = true
    · simp only [flash_pass, hok, if_true] at h ⊢
      rw [List.map_cons, ih h]
    · simp only [flash_pass, eq_false_of_ne_true hok, Bool.false_eq_true, if_false] at h
      cases h

theorem verify_pass_actions (dev : DeviceModel) :
    ∀ l : List (Sector × List Nat), ∀ a ∈ (verify_pass dev l).1, isReadAct a = true := by
  intro l
  induction l with
  | nil => intro a ha; cases ha
  | cons e rest ih =>
    intro a ha
    obtain ⟨s, expected⟩ := e
    cases hm : get_first_mismatch_index (dev.readback s) expected with
    | error msg =>
      simp only [verify_pass, hm] at ha
      rcases List.mem_cons.mp ha with h | h
      · subst h; rfl
      · cases h
    | ok r =>
      cases r with
      | none =>
        simp only [verify_pass, hm] at ha
        rcases List.mem_cons.mp ha with h | h
        · subst h; rfl
        · exact ih a h
      | some pos =>
        simp only [verify_pass, hm] at ha
        rcases List.mem_cons.mp ha with h | h
        · subst h; rfl
        · cases h

theorem verify_pass_complete (dev : DeviceModel) :
    ∀ l : List (Sector × List Nat), (verify_pass dev l).2 = none →
      (verify_pass dev l).1 = l.map (fun e => Action.readAct e.1) := by
  intro l
  induction l with
  | nil => intro _; rfl
  | cons e rest ih =>
    intro h
    obtain ⟨s, expected⟩ := e
    cases hm : get_first_mismatch_index (dev.readback s) expected with
    | error msg =>
      simp only [verify_pass, hm] at h
      cases h
    | ok r =>
      cases r with
      | none =>
        simp only [verify_pass, hm] at h ⊢
        rw [List.map_cons, ih h]
      | some pos =>
        simp only [verify_pass, hm] at h
        cases h

/-! # Claim theorems -/

/-- **C1.** For every well-formed descriptor string (three `/`-separated
fields, a base address accepted by `int(_, 0)`, and layout terms that all
parse), `get_device_sectors` emits, for each layout term in order, exactly
`repeat` consecutive sectors of `size * unit` bytes, the first sector of
the whole list starting at the base address and each subsequent sector
starting exactly where the previous one ends (`contiguousB`). -/
theorem sector_map_builder (name : String) (alt : Nat) (label bstr layout : List Char)
    (baseaddr : Int) (terms : List (Int × Int × Char))
    (h1 : py_split '/' name.data = [label, bstr, layout])
    (h2 : pythonIntBase0 bstr = some baseaddr)
    (h3 : (py_split ',' layout).mapM parse_layout_term = some terms) :
    ∃ parts : List (List Sector),
      get_device_sectors name alt = some parts.flatten ∧
      List.Forall₂ (fun (part : List Sector) (t : Int × Int × Char) =>
          part.length = t.1.toNat ∧ ∀ sec ∈ part, sec.len = t.2.1) parts terms ∧
      contiguousB baseaddr parts.flatten = true := by
  refine ⟨term_parts ⟨py_strip_at (py_strip label)⟩ alt baseaddr baseaddr terms, ?_, ?_, ?_⟩
  · simp only [get_device_sectors, h1, h2, h3]
    rw [← expand_terms_eq_flatten]
  · exact term_parts_forall2 _ alt baseaddr terms baseaddr
  · rw [← expand_terms_eq_flatten]
    exact contiguousB_expand_terms _ alt baseaddr terms baseaddr

/-- Witness for C1: the example descriptor
`"@Flash  /0x08000000/04*016Kg,01*064Kg,07*128Kg"` yields exactly 12
sectors — 4 of 16384 bytes from 0x08000000, 1 of 65536 bytes at
0x08010000, 7 of 131072 bytes from 0x08020000 — contiguous and in order. -/
theorem sector_map_builder_witness :
    (∃ parts : List (List Sector),
      get_device_sectors "@Flash  /0x08000000/04*016Kg,01*064Kg,07*128Kg" 0
        = some parts.flatten ∧
      List.Forall₂ (fun (part : List Sector) (t : Int × Int × Char) =>
          part.length = t.1.toNat ∧ ∀ sec ∈ part, sec.len = t.2.1) parts
        [(4, 16384, 'g'), (1, 65536, 'g'), (7, 131072, 'g')] ∧
      contiguousB 0x08000000 parts.flatten = true) ∧
    get_device_sectors "@Flash  /0x08000000/04*016Kg,01*064Kg,07*128Kg" 0 = some
      [⟨"Flash", 0, 0x08000000, 0x08000000, 16384, 'g'⟩,
       ⟨"Flash", 0, 0x08000000, 0x08004000, 16384, 'g'⟩,
       ⟨"Flash", 0, 0x08000000, 0x08008000, 16384, 'g'⟩,
       ⟨"Flash", 0, 0x08000000, 0x0800C000, 16384, 'g'⟩,
       ⟨"Flash", 0, 0x08000000, 0x08010000, 65536, 'g'⟩,
       ⟨"Flash", 0, 0x08000000, 0x08020000, 131072, 'g'⟩,
       ⟨"Flash", 0, 0x08000000, 0x08040000, 131072, 'g'⟩,
       ⟨"Flash", 0, 0x08000000, 0x08060000, 131072, 'g'⟩,
       ⟨"Flash", 0, 0x08000000, 0x08080000, 131072, 'g'⟩,
       ⟨"Flash", 0, 0x08000000, 0x080A0000, 131072, 'g'⟩,
       ⟨"Flash", 0, 0x08000000, 0x080C0000, 131072, 'g'⟩,
       ⟨"Flash", 0, 0x08000000, 0x080E0000, 131072, 'g'⟩] :=
  ⟨sector_map_builder "@Flash  /0x08000000/04*016Kg,01*064Kg,07*128Kg" 0
      "@Flash  ".data "0x08000000".data "04*016Kg,01*064Kg,07*128Kg".data 0x08000000
      [(4, 16384, 'g'), (1, 65536, 'g'), (7, 131072, 'g')]
      (by decide) (by decide) (by decide),
    by decide⟩

/-- **C6 counterexample.** An unknown access-mode letter is *not* rejected:
the descriptor `"@X/0x08000000/01*016KZ"` has the unknown mode letter `Z`,
yet `get_device_sectors` silently emits a sector map for it instead of
raising. -/
theorem sector_map_builder_unknown_mode_accepted :
    get_device_sectors "@X/0x08000000/01*016KZ" 0
      = some [⟨"X", 0, 0x08000000, 0x08000000, 16384, 'Z'⟩] := by decide

/-- **C6 (amended).** For every descriptor string malformed by a wrong
number of `/`-separated fields, a base address rejected by `int(_, 0)`, or
a layout term that fails to parse (non-numeric repeat or size, or an
unknown size-unit letter), `get_device_sectors` raises rather than
emitting any sector.  (An unknown access-mode letter, by contrast, is
accepted unvalidated — see the counterexample.) -/
theorem sector_map_builder_malformed (name : String) (alt : Nat) :
    ((py_split '/' name.data).length ≠ 3 → get_device_sectors name alt = none) ∧
    (∀ label bstr layout, py_split '/' name.data = [label, bstr, layout] →
      pythonIntBase0 bstr = none → get_device_sectors name alt = none) ∧
    (∀ label bstr layout t, py_split '/' name.data = [label, bstr, layout] →
      t ∈ py_split ',' layout → parse_layout_term t = none →
      get_device_sectors name alt = none) := by
  refine ⟨?_, ?_, ?_⟩
  · intro h
    match hs : py_split '/' name.data with
    | [] => simp [get_device_sectors, hs]
    | [a] => simp [get_device_sectors, hs]
    | [a, b] => simp [get_device_sectors, hs]
    | [a, b, c] => exact absurd (by simp [hs]) h
    | a :: b :: c :: d :: rest => simp [get_device_sectors, hs]
  · intro label bstr layout h1 h2
    simp [get_device_sectors, h1, h2]
  · intro label bstr layout t h1 ht hterm
    have hm : (py_split ',' layout).mapM parse_layout_term = none :=
      mapM_option_eq_none _ _ ⟨t, ht, hterm⟩
    have hm2 : List.mapM.loop parse_layout_term (py_split ',' layout) [] = none := hm
    cases hb : pythonIntBase0 bstr <;> simp [get_device_sectors, h1, hb, hm, hm2]

/-- Witness for C6 (amended): a two-field descriptor, a non-numeric base
address, and an unknown size-unit letter each make `get_device_sectors`
raise. -/
theorem sector_map_builder_malformed_witness :
    get_device_sectors "@X/0x08000000" 0 = none ∧
    get_device_sectors "@X/zzz/01*016Kg" 0 = none ∧
    get_device_sectors "@X/0x08000000/01*016Qg" 0 = none :=
  ⟨(sector_map_builder_malformed "@X/0x08000000" 0).1 (by decide),
   (sector_map_builder_malformed "@X/zzz/01*016Kg" 0).2.1
     "@X".data "zzz".data "01*016Kg".data (by decide) (by decide),
   (sector_map_builder_malformed "@X/0x08000000/01*016Qg" 0).2.2
     "@X".data "0x08000000".data "01*016Qg".data "01*016Qg".data
     (by decide) (by decide) (by decide)⟩

/-- **C2.** `populate_sectors` selects a sector if and only if some image
segment `[start, end)` satisfies
`(start < addr ∧ end > addr) ∨ (start ≥ addr ∧ start < addr + len)`;
unselected sectors yield no entry (the selected entries are exactly the
filter of the sector list, in order), and an empty image selects no
sectors. -/
theorem target_selector (sectors : List Sector) (hf : Hexfile) :
    (populate_sectors sectors hf).map Prod.fst
      = sectors.filter (fun s => decide (∃ p ∈ hf.segs,
          (p.1 < s.addr ∧ s.addr < p.2) ∨ (s.addr ≤ p.1 ∧ p.1 < s.addr + s.len))) ∧
    (hf.segs = [] → populate_sectors sectors hf = []) := by
  constructor
  · rw [populate_map_fst]
    apply List.filter_congr
    intro s _
    rw [Bool.eq_iff_iff, touched_iff, decide_eq_true_eq]
  · intro h
    have : ∀ s : Sector, touched s hf.segs = false := by
      intro s
      rw [h]
      rfl
    simp [populate_sectors, this]

/-- Witness for C2: against the 12-sector example map, the single segment
`[0x08010010, 0x08010020)` selects only the 64-KiB sector at 0x08010000;
an empty image selects nothing. -/
theorem target_selector_witness :
    (populate_sectors exampleSectorMap ⟨[(0x08010010, 0x08010020)], []⟩).map Prod.fst
      = [⟨"Flash", 0, 0x08000000, 0x08010000, 65536, 'g'⟩] ∧
    populate_sectors exampleSectorMap ⟨[], []⟩ = [] :=
  ⟨(target_selector exampleSectorMap ⟨[(0x08010010, 0x08010020)], []⟩).1.trans (by decide),
   (target_selector exampleSectorMap ⟨[], []⟩).2 rfl⟩

/-- **C3.** Every entry yielded by `populate_sectors` pairs a touched
sector with a payload of exactly the sector's length covering
`[addr, addr + len)`, and every payload byte whose address is not covered
by any image segment is the fill value 0xFF (assuming, as `IntelHex`
guarantees, that the image only holds bytes inside its reported
segments). -/
theorem target_entry_fill (sectors : List Sector) (hf : Hexfile) (s : Sector) (pay : List Nat)
    (hmem : (s, pay) ∈ populate_sectors sectors hf)
    (hlen : 0 ≤ s.len)
    (himg : ∀ q ∈ hf.mem, ∃ p ∈ hf.segs, p.1 ≤ q.1 ∧ q.1 < p.2) :
    (pay.length : Int) = s.len ∧
    ∀ i (hi : i < pay.length),
      (¬ ∃ p ∈ hf.segs, p.1 ≤ s.addr + (i : Int) ∧ s.addr + (i : Int) < p.2) →
      pay.get ⟨i, hi⟩ = 255 := by
  unfold populate_sectors at hmem
  rw [List.mem_filterMap] at hmem
  obtain ⟨sec, _, hsec⟩ := hmem
  by_cases htc : touched sec hf.segs = true
  · rw [if_pos htc, Option.some_inj, Prod.mk.injEq] at hsec
    obtain ⟨h1, h2⟩ := hsec
    have hpay : pay = tobinarray hf s.addr (s.addr + s.len - 1) := by
      rw [← h2, h1]
    subst hpay
    exact ⟨tobinarray_length hf s.addr s.len hlen,
      fun i hi hout => tobinarray_get hf s.addr s.len i hi himg hout⟩
  · rw [if_neg htc] at hsec
    cases hsec

/-- Witness for C3: a 16-byte sector at address 0 with image segment
`[4, 6)` holding bytes 0xAB, 0xCD yields a 16-byte payload, and the bytes
outside the segment are 0xFF. -/
theorem target_entry_fill_witness :
    ((([255, 255, 255, 255, 171, 205, 255, 255,
        255, 255, 255, 255, 255, 255, 255, 255] : List Nat).length : Int) = 16 ∧
     ∀ i (hi : i < ([255, 255, 255, 255, 171, 205, 255, 255,
        255, 255, 255, 255, 255, 255, 255, 255] : List Nat).length),
       (¬ ∃ p ∈ [((4 : Int), (6 : Int))],
          p.1 ≤ 0 + (i : Int) ∧ 0 + (i : Int) < p.2) →
       ([255, 255, 255, 255, 171, 205, 255, 255,
         255, 255, 255, 255, 255, 255, 255, 255] : List Nat).get ⟨i, hi⟩ = 255) :=
  target_entry_fill [⟨"S", 0, 0, 0, 16, 'g'⟩] ⟨[(4, 6)], [(4, 171), (5, 205)]⟩
    ⟨"S", 0, 0, 0, 16, 'g'⟩
    [255, 255, 255, 255, 171, 205, 255, 255, 255, 255, 255, 255, 255, 255, 255, 255]
    (by decide) (by decide) (by decide)

/-- **C4.** The chunk size used by both the program pass (`flash`) and the
verify pass (`read`) is `gcd(sector_len, MAX_TRANSFER_SIZE)`; it is
positive, always divides the sector length with no remainder, every chunk
is full-size, the number of chunks is exactly `sector_len / chunk_size`
(stated multiplicatively) and agrees between the write and read loops, and
the chunks are written in ascending block-index order starting at 0. -/
theorem flash_read_chunking (len : Int) (data : List Nat)
    (hdata : (data.length : Int) = len) :
    fractions_gcd len MAX_TRANSFER_SIZE ∣ len ∧
    0 < fractions_gcd len MAX_TRANSFER_SIZE ∧
    ((flash_blocks data (fractions_gcd len MAX_TRANSFER_SIZE)).length : Int)
        * fractions_gcd len MAX_TRANSFER_SIZE = len ∧
    (∀ b ∈ flash_blocks data (fractions_gcd len MAX_TRANSFER_SIZE),
      (b.length : Int) = fractions_gcd len MAX_TRANSFER_SIZE) ∧
    read_num_blocks len = (flash_blocks data (fractions_gcd len MAX_TRANSFER_SIZE)).length ∧
    flash_write_trace data (fractions_gcd len MAX_TRANSFER_SIZE)
      = (List.range (flash_blocks data (fractions_gcd len MAX_TRANSFER_SIZE)).length).zip
          (flash_blocks data (fractions_gcd len MAX_TRANSFER_SIZE)) := by
  subst hdata
  have hts : fractions_gcd (data.length : Int) MAX_TRANSFER_SIZE
      = ((Nat.gcd data.length 2048 : Nat) : Int) := by
    simp [fractions_gcd, MAX_TRANSFER_SIZE, Int.gcd]
  set T : Nat := Nat.gcd data.length 2048 with hTdef
  have hTpos : 0 < T := Nat.gcd_pos_of_pos_right _ (by norm_num)
  obtain ⟨q, hq⟩ : T ∣ data.length := Nat.gcd_dvd_left _ _
  have hdiv : (data.length + T - 1) / T = q := by
    have h1 : data.length + T - 1 = (T - 1) + q * T := by
      rw [hq, Nat.mul_comm T q]
      omega
    rw [h1, Nat.add_mul_div_right _ _ hTpos, Nat.div_eq_of_lt (by omega)]
    omega
  have hcount :
      (flash_blocks data (fractions_gcd (data.length : Int) MAX_TRANSFER_SIZE)).length = q := by
    simp only [flash_blocks, py_range, hts, List.length_map, List.length_range,
      Int.sub_zero, Int.toNat_natCast]
    exact hdiv
  refine ⟨?_, ?_, ?_, ?_, ?_, ?_⟩
  · rw [hts]
    exact Int.natCast_dvd_natCast.mpr (Nat.gcd_dvd_left _ _)
  · rw [hts]
    exact_mod_cast hTpos
  · rw [hcount, hts]
    exact_mod_cast (Nat.mul_comm T q ▸ hq.symm)
  · intro b hb
    rw [hts] at hb
    simp only [flash_blocks, py_range, List.mem_map, Int.sub_zero, Int.toNat_natCast] at hb
    obtain ⟨i, hi, rfl⟩ := hb
    obtain ⟨k, hkmem, rfl⟩ := hi
    rw [List.mem_range, hdiv] at hkmem
    have hidx : ((0 : Int) + (T : Int) * (k : Int)).toNat = T * k := by
      rw [Int.zero_add]
      exact_mod_cast Int.toNat_natCast (T * k)
    have hbound : T * k + T ≤ data.length := by
      rw [hq]
      calc T * k + T = T * (k + 1) := by ring
        _ ≤ T * q := Nat.mul_le_mul_left T hkmem
    rw [List.length_take, List.length_drop, Nat.min_eq_left (by omega)]
    exact hts.symm
  · rw [hcount]
    simp only [read_num_blocks]
    rw [hts, Int.toNat_natCast, Int.toNat_natCast, hq, Nat.mul_comm T q,
      Nat.mul_div_cancel _ hTpos]
  · exact List.enum_eq_zip_range _

/-- Witness for C4: the chunk size for sector lengths 65536 and 49152 with
max transfer size 2048 is 2048, and the chunking facts instantiated at a
65536-byte payload. -/
theorem flash_read_chunking_witness :
    fractions_gcd 65536 MAX_TRANSFER_SIZE = 2048 ∧
    fractions_gcd 49152 MAX_TRANSFER_SIZE = 2048 ∧
    ((List.replicate 65536 (0 : Nat)).length : Int) = 65536 ∧
    (fractions_gcd 65536 MAX_TRANSFER_SIZE ∣ 65536 ∧
     0 < fractions_gcd 65536 MAX_TRANSFER_SIZE ∧
     ((flash_blocks (List.replicate 65536 0) (fractions_gcd 65536 MAX_TRANSFER_SIZE)).length : Int)
         * fractions_gcd 65536 MAX_TRANSFER_SIZE = 65536 ∧
     (∀ b ∈ flash_blocks (List.replicate 65536 0) (fractions_gcd 65536 MAX_TRANSFER_SIZE),
       (b.length : Int) = fractions_gcd 65536 MAX_TRANSFER_SIZE) ∧
     read_num_blocks 65536
        = (flash_blocks (List.replicate 65536 0) (fractions_gcd 65536 MAX_TRANSFER_SIZE)).length ∧
     flash_write_trace (List.replicate 65536 0) (fractions_gcd 65536 MAX_TRANSFER_SIZE)
       = (List.range
            (flash_blocks (List.replicate 65536 0) (fractions_gcd 65536 MAX_TRANSFER_SIZE)).length).zip
           (flash_blocks (List.replicate 65536 0) (fractions_gcd 65536 MAX_TRANSFER_SIZE))) :=
  ⟨by decide, by decide, by rw [List.length_replicate]; norm_cast,
   flash_read_chunking 65536 (List.replicate 65536 0) (by rw [List.length_replicate]; norm_cast)⟩

/-- **C5.** The deployed composition `uuid_to_serial(*str_to_uuid(uuid))`
is *not* a total function into 12-character serials: it raises
`struct.error` on every input.  `str_to_uuid` returns the 1-tuples
produced by `struct.unpack`, so `uuid0 + uuid2` concatenates two 1-tuples
and `struct.pack('>I', _)` is handed a 2-tuple instead of an integer.  The
first conjunct evaluates the code at a well-formed 12-byte example UUID;
the second shows the failure is universal. -/
theorem uuid_serial_always_raises :
    str_to_uuid_serial "12345678-9ABCDEF0-13579BDF" = none ∧
    ∀ uuid : String, str_to_uuid_serial uuid = none := by
  constructor
  · decide
  · intro uuid
    unfold str_to_uuid_serial
    cases h : str_to_uuid uuid
    · rfl
    · rename_i v
      obtain ⟨u0, u1, u2⟩ := v
      rfl

/-- **C7.** `set_address_safe` always issues set-address and polls until
the device leaves `DFU_DOWNLOAD_BUSY`; it raises carrying the observed
status unless the resulting state is exactly `DFU_DOWNLOAD_IDLE`;
otherwise it issues abort and polls until the device leaves
`DFU_DOWNLOAD_SYNC`, raising with the observed status unless the
resulting state is exactly `DFU_IDLE`; it returns normally if and only if
both required states are observed. -/
theorem set_address_safe_spec (h : DfuHandle) (addr : Int) (st1 st2 : DfuStatus) :
    ((set_address_safe h addr st1 st2).2 = none ↔
      (st1.state = DfuState.DFU_DOWNLOAD_IDLE ∧ st2.state = DfuState.DFU_IDLE)) ∧
    (st1.state ≠ DfuState.DFU_DOWNLOAD_IDLE →
      set_address_safe h addr st1 st2 =
        ([DfuAction.setAddress addr, DfuAction.waitWhileState DfuState.DFU_DOWNLOAD_BUSY],
         some st1)) ∧
    (st1.state = DfuState.DFU_DOWNLOAD_IDLE →
      (set_address_safe h addr st1 st2).1 =
        [DfuAction.setAddress addr, DfuAction.waitWhileState DfuState.DFU_DOWNLOAD_BUSY,
         DfuAction.abortReq, DfuAction.waitWhileState DfuState.DFU_DOWNLOAD_SYNC]) ∧
    (st1.state = DfuState.DFU_DOWNLOAD_IDLE → st2.state ≠ DfuState.DFU_IDLE →
      (set_address_safe h addr st1 st2).2 = some st2) := by
  by_cases h1 : st1.state = DfuState.DFU_DOWNLOAD_IDLE <;>
    by_cases h2 : st2.state = DfuState.DFU_IDLE <;>
      simp [set_address_safe, h1, h2]

/-- Witness for C7: with the device reporting `DFU_DOWNLOAD_IDLE` then
`DFU_IDLE` the call returns normally; with an initial `DFU_ERROR` status it
raises carrying that status after only the set-address and first poll. -/
theorem set_address_safe_spec_witness :
    (set_address_safe ⟨0⟩ 134217728 ⟨0, DfuState.DFU_DOWNLOAD_IDLE⟩ ⟨0, DfuState.DFU_IDLE⟩).2
      = none ∧
    set_address_safe ⟨0⟩ 134217728 ⟨0, DfuState.DFU_ERROR⟩ ⟨0, DfuState.DFU_IDLE⟩
      = ([DfuAction.setAddress 134217728, DfuAction.waitWhileState DfuState.DFU_DOWNLOAD_BUSY],
         some ⟨0, DfuState.DFU_ERROR⟩) :=
  ⟨(set_address_safe_spec ⟨0⟩ 134217728 ⟨0, DfuState.DFU_DOWNLOAD_IDLE⟩
      ⟨0, DfuState.DFU_IDLE⟩).1.mpr ⟨rfl, rfl⟩,
   (set_address_safe_spec ⟨0⟩ 134217728 ⟨0, DfuState.DFU_ERROR⟩
      ⟨0, DfuState.DFU_IDLE⟩).2.1 (by decide)⟩

/-- **C10.** `set_address_safe` ignores the device handle passed as its
first parameter (`dfudef` is never referenced; every request goes to the
module-global `dfudev`, whose poll results `st1`, `st2` are held fixed
here): calling it with any two handles yields identical request traces and
results. -/
theorem set_address_safe_ignores_handle (h1 h2 : DfuHandle) (addr : Int)
    (st1 st2 : DfuStatus) :
    set_address_safe h1 addr st1 st2 = set_address_safe h2 addr st1 st2 := rfl

/-- **C8.** `get_first_mismatch_index`: for equal-length arrays it returns
`None` exactly when the arrays are equal, and any returned index is the
smallest differing position; for different lengths it raises instead of
reporting equality.  When verification hits a first mismatch at index
`pos`, the reported window starts at `pos` rounded down to a multiple of
16, the error is raised on that sector, and no later sector is read. -/
theorem mismatch_locator (a1 a2 : List Nat) :
    (a1.length = a2.length →
      ((get_first_mismatch_index a1 a2 = Except.ok none) ↔ a1 = a2) ∧
      (∀ i, get_first_mismatch_index a1 a2 = Except.ok (some i) →
        i < a1.length ∧ a1.get? i ≠ a2.get? i ∧ ∀ j, j < i → a1.get? j = a2.get? j)) ∧
    (a1.length ≠ a2.length →
      get_first_mismatch_index a1 a2 = Except.error "arrays must be same size") ∧
    (∀ (dev : DeviceModel) (pre : List (Sector × List Nat)) (s : Sector)
        (post : List (Sector × List Nat)) (pos : Nat),
      (∀ p ∈ pre, get_first_mismatch_index (dev.readback p.1) p.2 = Except.ok none) →
      get_first_mismatch_index (dev.readback s) a2 = Except.ok (some pos) →
      verify_pass dev (pre ++ (s, a2) :: post)
        = (pre.map (fun p => Action.readAct p.1) ++ [Action.readAct s],
           some (RunError.verifyMismatch s (s.addr + ((pos - pos % 16 : Nat) : Int))
             ((a2.drop (pos - pos % 16)).take 16)
             (((dev.readback s).drop (pos - pos % 16)).take 16)))) := by
  refine ⟨fun hlen => ⟨?_, ?_⟩, fun hne => ?_, fun dev pre s post pos hpre hm => ?_⟩
  · unfold get_first_mismatch_index
    rw [if_neg (not_not_intro hlen)]
    simp only [Except.ok.injEq]
    exact first_mismatch_none_iff a1 a2 hlen
  · intro i hi
    unfold get_first_mismatch_index at hi
    rw [if_neg (not_not_intro hlen)] at hi
    exact first_mismatch_some_spec a1 a2 i (by simpa using hi)
  · unfold get_first_mismatch_index
    rw [if_pos hne]
  · exact verify_pass_mismatch dev pre s a2 post pos hpre hm

/-- Witness for C8: two 40-byte arrays first differing at index 37 report
window start 32 (address 0 + 32) and abort the verify pass on that sector;
arrays of different lengths raise. -/
theorem mismatch_locator_witness :
    get_first_mismatch_index (List.replicate 40 (0 : Nat))
        (List.replicate 37 (0 : Nat) ++ 1 :: List.replicate 2 0) = Except.ok (some 37) ∧
    verify_pass ⟨fun _ => true, fun _ => true, fun _ => List.replicate 40 0⟩
        [(⟨"S", 0, 0, 0, 40, 'g'⟩, List.replicate 37 (0 : Nat) ++ 1 :: List.replicate 2 0)]
      = ([Action.readAct ⟨"S", 0, 0, 0, 40, 'g'⟩],
         some (RunError.verifyMismatch ⟨"S", 0, 0, 0, 40, 'g'⟩ 32
           (((List.replicate 37 (0 : Nat) ++ 1 :: List.replicate 2 0).drop 32).take 16)
           (((List.replicate 40 (0 : Nat)).drop 32).take 16))) ∧
    get_first_mismatch_index [0, 1] [0] = Except.error "arrays must be same size" :=
  ⟨by rfl,
   (mismatch_locator (List.replicate 40 0)
       (List.replicate 37 0 ++ 1 :: List.replicate 2 0)).2.2
     ⟨fun _ => true, fun _ => true, fun _ => List.replicate 40 0⟩ [] ⟨"S", 0, 0, 0, 40, 'g'⟩
     [] 37 (by simp) (by rfl),
   (mismatch_locator [0, 1] [0]).2.1 (by decide)⟩

/-- **C9.** The main sequence runs three fully sequential passes: its
trace decomposes as erase actions, then flash actions, then read actions,
then (possibly) the jump; any flash action implies the erase pass
completed over every touched sector first, any read action implies the
flash pass completed over every touched sector first, the jump happens
only after a complete and error-free verify pass, and a verification
mismatch makes the run end with that fatal error with the
jump-to-application never invoked. -/
theorem program_sequencer (dev : DeviceModel) (entries : List (Sector × List Nat)) :
    ∃ etr ftr vtr jtr : List Action,
      (run_program dev entries).1 = etr ++ ftr ++ vtr ++ jtr ∧
      (∀ a ∈ etr, isEraseAct a = true) ∧
      (∀ a ∈ ftr, isFlashAct a = true) ∧
      (∀ a ∈ vtr, isReadAct a = true) ∧
      (ftr ≠ [] → etr = entries.map (fun e => Action.eraseAct e.1)) ∧
      (vtr ≠ [] → ftr = entries.map (fun e => Action.flashAct e.1)) ∧
      (jtr ≠ [] → vtr = entries.map (fun e => Action.readAct e.1) ∧
        (run_program dev entries).2 = none ∧ jtr = [Action.jumpAct 134217728]) ∧
      (∀ err, (verify_pass dev entries).2 = some err →
        (∀ ad, Action.jumpAct ad ∉ (run_program dev entries).1) ∧
        ((erase_pass dev entries).2 = none → (flash_pass dev entries).2 = none →
          (run_program dev entries).2 = some err)) := by
  cases he : (erase_pass dev entries).2 with
  | some err1 =>
    have hrun : run_program dev entries = ((erase_pass dev entries).1, some err1) := by
      simp only [run_program, he]
    refine ⟨(erase_pass dev entries).1, [], [], [], by rw [hrun]; simp,
      erase_pass_actions dev entries, by simp, by simp, by simp, by simp, by simp, ?_⟩
    intro err _
    refine ⟨?_, fun h1 _ => absurd h1 (by simp)⟩
    intro ad hmem
    rw [hrun] at hmem
    have := erase_pass_actions dev entries _ hmem
    simp [isEraseAct] at this
  | none =>
    cases hf : (flash_pass dev entries).2 with
    | some err2 =>
      have hrun : run_program dev entries
          = ((erase_pass dev entries).1 ++ (flash_pass dev entries).1, some err2) := by
        simp only [run_program, he, hf]
      refine ⟨(erase_pass dev entries).1, (flash_pass dev entries).1, [], [],
        by rw [hrun]; simp, erase_pass_actions dev entries, flash_pass_actions dev entries,
        by simp, fun _ => erase_pass_complete dev entries he, by simp, by simp, ?_⟩
      intro err _
      refine ⟨?_, fun _ h2 => absurd h2 (by simp)⟩
      intro ad hmem
      rw [hrun] at hmem
      rcases List.mem_append.mp hmem with h | h
      · have := erase_pass_actions dev entries _ h
        simp [isEraseAct] at this
      · have := flash_pass_actions dev entries _ h
        simp [isFlashAct] at this
    | none =>
      cases hv : (verify_pass dev entries).2 with
      | some err3 =>
        have hrun : run_program dev entries
            = ((erase_pass dev entries).1 ++ (flash_pass dev entries).1
                ++ (verify_pass dev entries).1, some err3) := by
          simp only [run_program, he, hf, hv]
        refine ⟨(erase_pass dev entries).1, (flash_pass dev entries).1,
          (verify_pass dev entries).1, [], by rw [hrun]; simp,
          erase_pass_actions dev entries, flash_pass_actions dev entries,
          verify_pass_actions dev entries, fun _ => erase_pass_complete dev entries he,
          fun _ => flash_pass_complete dev entries hf, by simp, ?_⟩
        intro err herr
        obtain rfl := Option.some_inj.mp herr
        refine ⟨?_, fun _ _ => by rw [hrun]⟩
        intro ad hmem
        rw [hrun] at hmem
        rcases List.mem_append.mp hmem with h | h
        · rcases List.mem_append.mp h with h2 | h2
          · have := erase_pass_actions dev entries _ h2
            simp [isEraseAct] at this
          · have := flash_pass_actions dev entries _ h2
            simp [isFlashAct] at this
        · have := verify_pass_actions dev entries _ h
          simp [isReadAct] at this
      | none =>
        have hrun : run_program dev entries
            = ((erase_pass dev entries).1 ++ (flash_pass dev entries).1
                ++ (verify_pass dev entries).1 ++ [Action.jumpAct 134217728], none) := by
          simp only [run_program, he, hf, hv]
        refine ⟨(erase_pass dev entries).1, (flash_pass dev entries).1,
          (verify_pass dev entries).1, [Action.jumpAct 134217728], by rw [hrun],
          erase_pass_actions dev entries, flash_pass_actions dev entries,
          verify_pass_actions dev entries, fun _ => erase_pass_complete dev entries he,
          fun _ => flash_pass_complete dev entries hf,
          fun _ => ⟨verify_pass_complete dev entries hv, by rw [hrun], rfl⟩, ?_⟩
        intro err herr
        exact absurd herr (by simp)

/-- Witness for C9: one touched sector whose readback differs from the
expected payload; the run performs erase, then flash, then read, raises
the verification error, and never jumps. -/
theorem program_sequencer_witness :
    run_program ⟨fun _ => true, fun _ => true, fun _ => [0, 0]⟩
        [(⟨"S", 0, 0, 0, 2, 'g'⟩, [0, 1])]
      = ([Action.eraseAct ⟨"S", 0, 0, 0, 2, 'g'⟩, Action.flashAct ⟨"S", 0, 0, 0, 2, 'g'⟩,
          Action.readAct ⟨"S", 0, 0, 0, 2, 'g'⟩],
         some (RunError.verifyMismatch ⟨"S", 0, 0, 0, 2, 'g'⟩ 0 [0, 1] [0, 0])) ∧
    (∃ etr ftr vtr jtr : List Action,
      (run_program ⟨fun _ => true, fun _ => true, fun _ => [0, 0]⟩
          [(⟨"S", 0, 0, 0, 2, 'g'⟩, [0, 1])]).1 = etr ++ ftr ++ vtr ++ jtr ∧
      (∀ a ∈ etr, isEraseAct a = true) ∧
      (∀ a ∈ ftr, isFlashAct a = true) ∧
      (∀ a ∈ vtr, isReadAct a = true) ∧
      (ftr ≠ [] → etr = [(⟨"S", 0, 0, 0, 2, 'g'⟩, ([0, 1] : List Nat))].map
          (fun e => Action.eraseAct e.1)) ∧
      (vtr ≠ [] → ftr = [(⟨"S", 0, 0, 0, 2, 'g'⟩, ([0, 1] : List Nat))].map
          (fun e => Action.flashAct e.1)) ∧
      (jtr ≠ [] → vtr = [(⟨"S", 0, 0, 0, 2, 'g'⟩, ([0, 1] : List Nat))].map
          (fun e => Action.readAct e.1) ∧
        (run_program ⟨fun _ => true, fun _ => true, fun _ => [0, 0]⟩
            [(⟨"S", 0, 0, 0, 2, 'g'⟩, [0, 1])]).2 = none ∧
        jtr = [Action.jumpAct 134217728]) ∧
      (∀ err, (verify_pass ⟨fun _ => true, fun _ => true, fun _ => [0, 0]⟩
            [(⟨"S", 0, 0, 0, 2, 'g'⟩, [0, 1])]).2 = some err →
        (∀ ad, Action.jumpAct ad ∉ (run_program ⟨fun _ => true, fun _ => true, fun _ => [0, 0]⟩
            [(⟨"S", 0, 0, 0, 2, 'g'⟩, [0, 1])]).1) ∧
        ((erase_pass ⟨fun _ => true, fun _ => true, fun _ => [0, 0]⟩
            [(⟨"S", 0, 0, 0, 2, 'g'⟩, [0, 1])]).2 = none →
         (flash_pass ⟨fun _ => true, fun _ => true, fun _ => [0, 0]⟩
            [(⟨"S", 0, 0, 0, 2, 'g'⟩, [0, 1])]).2 = none →
         (run_program ⟨fun _ => true, fun _ => true, fun _ => [0, 0]⟩
            [(⟨"S", 0, 0, 0, 2, 'g'⟩, [0, 1])]).2 = some err))) :=
  ⟨by rfl,
   program_sequencer ⟨fun _ => true, fun _ => true, fun _ => [0, 0]⟩
     [(⟨"S", 0, 0, 0, 2, 'g'⟩, [0, 1])]⟩

end DfuTool
